import Mathlib

/-!
Verification of the interactive 3D ontology-graph viewer (`src/app.js`).

The repository ships two variants of the application in one file:
* the CSV variant (first script): loads `nodes.csv` / `edges.csv`,
  builds spheres and lines, and has a simple pointer-down handler and
  reset button;
* the module variant (second script, ES module): static node/edge data,
  a fixed 200-slot particle pool, drag interaction, pulse animation,
  a label-texture cache and a richer reset handler.

Scalars are modelled as `Rat` (the JS numbers involved are all produced
by rational arithmetic from rational literals and from `Math.random()`
results, which we pass in explicitly as parameters).  Engine-level
facilities (raycasting, camera projection, canvas drawing) are inputs
to the handlers, mirroring exactly what the code reads from them.
-/

namespace Workshop1

/-- 3D vector with rational components, standing for `THREE.Vector3`. -/
structure Vec3 where
  x : Rat
  y : Rat
  z : Rat
deriving Repr, DecidableEq

def Vec3.add (a b : Vec3) : Vec3 := ⟨a.x + b.x, a.y + b.y, a.z + b.z⟩

def Vec3.sub (a b : Vec3) : Vec3 := ⟨a.x - b.x, a.y - b.y, a.z - b.z⟩

/-- Scalar multiple `k • v` (`multiplyScalar`). -/
def Vec3.smul (k : Rat) (v : Vec3) : Vec3 := ⟨k * v.x, k * v.y, k * v.z⟩

instance : Add Vec3 := ⟨Vec3.add⟩

instance : Sub Vec3 := ⟨Vec3.sub⟩

/-- One pooled particle: the mesh state (`position`, `scale`, material
`color`/`opacity`, `visible`) together with its `userData`
(`alive`, `life`, `velocity`), as created in the pool-construction loop. -/
structure Particle where
  alive : Bool
  life : Rat
  velocity : Vec3
  position : Vec3
  scale : Rat
  color : Nat
  opacity : Rat
  visible : Bool
deriving Repr, DecidableEq

/-- A freshly constructed pool slot:
`{ alive: false, life: 0, velocity: (0,0,0) }`, opacity `0`, invisible,
default mesh position and scale, white material. -/
def initParticle0 : Particle :=
  { alive := false, life := 0, velocity := ⟨0, 0, 0⟩, position := ⟨0, 0, 0⟩
    scale := 1, color := 0xffffff, opacity := 0, visible := false }

/-- `PARTICLE_MAX`. -/
def PARTICLE_MAX : Nat := 200

/-- The pool as built at start-up: `PARTICLE_MAX` idle slots. -/
def particlePool0 : List Particle := List.replicate PARTICLE_MAX initParticle0

/-- The fields written to the first idle slot by `spawnParticles`.
`rl, rs, rx, ry, rz` are the five `Math.random()` draws, in source order:
life `0.7 + rl*0.6`, scale `0.6 + rs*0.6`, velocity
`((rx-0.5)*6, ry*6, (rz-0.5)*6)`, the given color, opacity `1`, visible,
position copied from `origin`. -/
def spawnedParticle (origin : Vec3) (color : Nat) (rl rs rx ry rz : Rat) : Particle :=
  { alive := true
    life := 7/10 + rl * (6/10)
    position := origin
    scale := 6/10 + rs * (6/10)
    color := color
    opacity := 1
    velocity := ⟨(rx - 1/2) * 6, ry * 6, (rz - 1/2) * 6⟩
    visible := true }

/-- `spawnParticles(origin, color)`: scan the pool in order, initialize the
first slot with `!p.userData.alive` and `break`; leave everything else as is. -/
def spawnParticles (origin : Vec3) (color : Nat) (rl rs rx ry rz : Rat) :
    List Particle → List Particle
  | [] => []
  | p :: rest =>
    if p.alive then p :: spawnParticles origin color rl rs rx ry rz rest
    else spawnedParticle origin color rl rs rx ry rz :: rest

/-- Index of the first idle (`!alive`) slot in pool-scan order, if any. -/
def firstIdleIdx : List Particle → Option Nat
  | [] => none
  | p :: rest => if p.alive then (firstIdleIdx rest).map (· + 1) else some 0

/-- The per-particle body of the particle loop in `animate`: skip dead
particles; decrement `life` by `dt`; on `life <= 0` go idle and invisible;
otherwise Euler-step the position by the (pre-damping) velocity, damp the
velocity by the constant `0.98`, and set opacity to `max 0 (life / 1.2)`. -/
def updateParticle (dt : Rat) (p : Particle) : Particle :=
  if p.alive then
    let life := p.life - dt
    if life ≤ 0 then
      { p with alive := false, visible := false, life := life }
    else
      { p with
        life := life
        position := p.position + Vec3.smul dt p.velocity
        velocity := Vec3.smul (98/100) p.velocity
        opacity := max 0 (life / (12/10)) }
  else p

/-- The whole-pool particle pass of one `animate` frame. -/
def updateParticles (dt : Rat) (pool : List Particle) : List Particle :=
  pool.map (updateParticle dt)

/-- The operations that touch the particle pool during a session: a spawn
request (8 of them per node activation) or one frame of `animate`. -/
inductive PoolOp where
  | spawn (origin : Vec3) (color : Nat) (rl rs rx ry rz : Rat)
  | frame (dt : Rat)

def poolStep (pool : List Particle) : PoolOp → List Particle
  | .spawn o c rl rs rx ry rz => spawnParticles o c rl rs rx ry rz pool
  | .frame dt => updateParticles dt pool

/-- Pool contents after an arbitrary session history. -/
def runPool (ops : List PoolOp) : List Particle := ops.foldl poolStep particlePool0

/-- Number of alive particles. -/
def countAlive (pool : List Particle) : Nat := (pool.filter (·.alive)).length

theorem spawnParticles_length (o : Vec3) (c : Nat) (rl rs rx ry rz : Rat) :
    ∀ pool : List Particle,
      (spawnParticles o c rl rs rx ry rz pool).length = pool.length := by
  intro pool
  induction pool with
  | nil => rfl
  | cons p rest ih =>
    by_cases h : p.alive <;> simp [spawnParticles, h, ih]

theorem spawnParticles_all_alive (o : Vec3) (c : Nat) (rl rs rx ry rz : Rat) :
    ∀ pool : List Particle, (∀ p ∈ pool, p.alive = true) →
      spawnParticles o c rl rs rx ry rz pool = pool := by
  intro pool
  induction pool with
  | nil => intro _; rfl
  | cons p rest ih =>
    intro h
    have hp : p.alive = true := h p (List.mem_cons_self p rest)
    simp [spawnParticles, hp]
    exact ih fun q hq => h q (List.mem_cons_of_mem p hq)

theorem poolStep_length (pool : List Particle) (op : PoolOp) :
    (poolStep pool op).length = pool.length := by
  cases op with
  | spawn o c rl rs rx ry rz => exact spawnParticles_length o c rl rs rx ry rz pool
  | frame dt => simp [poolStep, updateParticles]

theorem runPool_length (ops : List PoolOp) : (runPool ops).length = PARTICLE_MAX := by
  suffices h : ∀ (l : List PoolOp) (pool : List Particle),
      (l.foldl poolStep pool).length = pool.length by
    simpa [runPool, particlePool0] using h ops particlePool0
  intro l
  induction l with
  | nil => intro pool; rfl
  | cons op rest ih =>
    intro pool
    rw [List.foldl_cons, ih, poolStep_length]

theorem countAlive_le_length (pool : List Particle) : countAlive pool ≤ pool.length :=
  List.length_filter_le _ pool

theorem spawnParticles_firstIdle_none (o : Vec3) (c : Nat) (rl rs rx ry rz : Rat) :
    ∀ pool : List Particle, firstIdleIdx pool = none →
      spawnParticles o c rl rs rx ry rz pool = pool := by
  intro pool
  induction pool with
  | nil => intro _; rfl
  | cons p rest ih =>
    intro h
    by_cases hp : p.alive
    · simp only [firstIdleIdx, hp, if_true, Option.map_eq_none'] at h
      simp [spawnParticles, hp, ih h]
    · simp [firstIdleIdx, hp] at h

theorem spawnParticles_get_firstIdle (o : Vec3) (c : Nat) (rl rs rx ry rz : Rat) :
    ∀ (pool : List Particle) (i : Nat), firstIdleIdx pool = some i →
      (spawnParticles o c rl rs rx ry rz pool).get? i =
        some (spawnedParticle o c rl rs rx ry rz) := by
  intro pool
  induction pool with
  | nil => intro i h; simp [firstIdleIdx] at h
  | cons p rest ih =>
    intro i h
    by_cases hp : p.alive
    · simp only [firstIdleIdx, hp, if_true] at h
      cases hrest : firstIdleIdx rest with
      | none => rw [hrest] at h; simp at h
      | some k =>
        rw [hrest] at h
        simp only [Option.map_some'] at h
        injection h with h
        subst h
        simp only [spawnParticles, hp, if_true]
        simpa using ih k hrest
    · simp only [firstIdleIdx, hp, if_false] at h
      cases h
      simp [spawnParticles, hp]

theorem spawnParticles_get_other (o : Vec3) (c : Nat) (rl rs rx ry rz : Rat) :
    ∀ (pool : List Particle) (i j : Nat), firstIdleIdx pool = some i → j ≠ i →
      (spawnParticles o c rl rs rx ry rz pool).get? j = pool.get? j := by
  intro pool
  induction pool with
  | nil => intro i j h _; simp [firstIdleIdx] at h
  | cons p rest ih =>
    intro i j h hj
    by_cases hp : p.alive
    · simp only [firstIdleIdx, hp, if_true] at h
      cases hrest : firstIdleIdx rest with
      | none => rw [hrest] at h; simp at h
      | some k =>
        rw [hrest] at h
        simp only [Option.map_some'] at h
        injection h with h
        subst h
        cases j with
        | zero => simp [spawnParticles, hp]
        | succ j =>
          have hjk : j ≠ k := fun hc => hj (by rw [hc])
          simp only [spawnParticles, hp, if_true]
          simpa using ih k j hrest hjk
    · simp only [firstIdleIdx, hp, if_false] at h
      cases h
      cases j with
      | zero => exact absurd rfl hj
      | succ j => simp [spawnParticles, hp]

/-- C2: during a session the pool is only touched by spawn requests and
frame updates; under any history its size stays exactly `PARTICLE_MAX = 200`
(no particle is allocated or freed), so at most 200 particles are alive at
any point; and a spawn request that finds no idle slot leaves the pool
completely unchanged. -/
theorem particle_pool_capacity_invariant :
    (∀ ops : List PoolOp,
        (runPool ops).length = PARTICLE_MAX ∧ countAlive (runPool ops) ≤ PARTICLE_MAX)
    ∧ (∀ (pool : List Particle) (o : Vec3) (c : Nat) (rl rs rx ry rz : Rat),
        (∀ p ∈ pool, p.alive = true) →
          spawnParticles o c rl rs rx ry rz pool = pool) := by
  constructor
  · intro ops
    refine ⟨runPool_length ops, ?_⟩
    calc countAlive (runPool ops) ≤ (runPool ops).length := countAlive_le_length _
      _ = PARTICLE_MAX := runPool_length ops
  · intro pool o c rl rs rx ry rz h
    exact spawnParticles_all_alive o c rl rs rx ry rz pool h

/-- A single alive particle, used as a concrete saturated pool. -/
def testAliveParticle : Particle :=
  { alive := true, life := 1, velocity := ⟨1, 2, 3⟩, position := ⟨0, 0, 0⟩
    scale := 1, color := 0xffffff, opacity := 1, visible := true }

/-- Witness for C2: a pool whose every slot is alive absorbs a spawn
request without any change. -/
theorem particle_pool_capacity_invariant_witness :
    (∀ p ∈ [testAliveParticle], p.alive = true)
    ∧ spawnParticles ⟨0, 0, 0⟩ 0xffdd33 (1/2) (1/2) (1/2) (1/2) (1/2)
        [testAliveParticle] = [testAliveParticle] := by
  refine ⟨by decide, ?_⟩
  exact particle_pool_capacity_invariant.2 [testAliveParticle]
    ⟨0, 0, 0⟩ 0xffdd33 (1/2) (1/2) (1/2) (1/2) (1/2) (by decide)

/-- C6: one frame's particle pass: a dead particle is untouched; an alive
particle has its life decremented by `dt`; if the result is `≤ 0` it goes
idle and invisible (everything else untouched, so it is reusable); otherwise
its position advances by the old velocity times `dt`, the velocity is
multiplied by the constant `0.98` (independent of `dt`) and the opacity
becomes the remaining life divided by `1.2` (proportional to it). -/
theorem particle_frame_update_behavior (p : Particle) (dt : Rat) :
    (p.alive = false → updateParticle dt p = p)
    ∧ (p.alive = true → p.life - dt ≤ 0 →
        updateParticle dt p = { p with alive := false, visible := false, life := p.life - dt })
    ∧ (p.alive = true → 0 < p.life - dt →
        updateParticle dt p =
          { p with
            life := p.life - dt
            position := p.position + Vec3.smul dt p.velocity
            velocity := Vec3.smul (98/100) p.velocity
            opacity := (p.life - dt) / (12/10) }) := by
  refine ⟨?_, ?_, ?_⟩
  · intro h; simp [updateParticle, h]
  · intro ha hl; simp [updateParticle, ha, hl]
  · intro ha hl
    have hl' : ¬ (p.life - dt ≤ 0) := not_le.mpr hl
    have hmax : max 0 ((p.life - dt) / (12/10)) = (p.life - dt) / (12/10) :=
      max_eq_right (div_nonneg (le_of_lt hl) (by norm_num))
    simp [updateParticle, ha, hl', hmax]

/-- An alive particle about to expire (life 1/2). -/
def testExpiringParticle : Particle :=
  { alive := true, life := 1/2, velocity := ⟨1, 0, 0⟩, position := ⟨0, 0, 0⟩
    scale := 1, color := 0xff0000, opacity := 1, visible := true }

/-- An alive particle with life to spare (life 2). -/
def testLiveParticle : Particle :=
  { alive := true, life := 2, velocity := ⟨2, 4, 6⟩, position := ⟨1, 1, 1⟩
    scale := 1, color := 0x00ff00, opacity := 1, visible := true }

/-- Witness for C6: all three branches exercised at concrete particles with
`dt = 1`: an idle particle is untouched, an expiring one goes idle and
invisible, and a surviving one is integrated, damped and faded. -/
theorem particle_frame_update_behavior_witness :
    (initParticle0.alive = false ∧ updateParticle 1 initParticle0 = initParticle0)
    ∧ (testExpiringParticle.alive = true ∧ testExpiringParticle.life - 1 ≤ 0
        ∧ updateParticle 1 testExpiringParticle =
            { testExpiringParticle with
              alive := false, visible := false, life := testExpiringParticle.life - 1 })
    ∧ (testLiveParticle.alive = true ∧ 0 < testLiveParticle.life - 1
        ∧ updateParticle 1 testLiveParticle =
            { testLiveParticle with
              life := testLiveParticle.life - 1
              position := testLiveParticle.position + Vec3.smul 1 testLiveParticle.velocity
              velocity := Vec3.smul (98/100) testLiveParticle.velocity
              opacity := (testLiveParticle.life - 1) / (12/10) }) := by
  refine ⟨⟨by decide, ?_⟩,
    ⟨by decide, by norm_num [testExpiringParticle], ?_⟩,
    ⟨by decide, by norm_num [testLiveParticle], ?_⟩⟩
  · exact (particle_frame_update_behavior initParticle0 1).1 (by decide)
  · exact (particle_frame_update_behavior testExpiringParticle 1).2.1 (by decide)
      (by norm_num [testExpiringParticle])
  · exact (particle_frame_update_behavior testLiveParticle 1).2.2 (by decide)
      (by norm_num [testLiveParticle])

/-- C7: `spawnParticles` is a no-op when no slot is idle; otherwise it
claims exactly the first idle slot in pool-scan order and initializes it
alive, at the given origin, with the given color, full opacity, the random
outward velocity `((rx-0.5)*6, ry*6, (rz-0.5)*6)`, and — for any value of
the random draw `rl` in `[0,1]` — a life in `[0.7, 1.3]` seconds. -/
theorem spawn_initializes_first_idle_slot
    (pool : List Particle) (o : Vec3) (c : Nat) (rl rs rx ry rz : Rat) (i : Nat) :
    (firstIdleIdx pool = none → spawnParticles o c rl rs rx ry rz pool = pool)
    ∧ (firstIdleIdx pool = some i →
        (spawnParticles o c rl rs rx ry rz pool).get? i =
            some (spawnedParticle o c rl rs rx ry rz)
        ∧ (spawnedParticle o c rl rs rx ry rz).alive = true
        ∧ (spawnedParticle o c rl rs rx ry rz).position = o
        ∧ (spawnedParticle o c rl rs rx ry rz).color = c
        ∧ (spawnedParticle o c rl rs rx ry rz).opacity = 1
        ∧ (spawnedParticle o c rl rs rx ry rz).visible = true
        ∧ (spawnedParticle o c rl rs rx ry rz).velocity =
            ⟨(rx - 1/2) * 6, ry * 6, (rz - 1/2) * 6⟩
        ∧ (0 ≤ rl → rl ≤ 1 →
            7/10 ≤ (spawnedParticle o c rl rs rx ry rz).life
            ∧ (spawnedParticle o c rl rs rx ry rz).life ≤ 13/10)) := by
  constructor
  · exact spawnParticles_firstIdle_none o c rl rs rx ry rz pool
  · intro h
    refine ⟨spawnParticles_get_firstIdle o c rl rs rx ry rz pool i h,
      rfl, rfl, rfl, rfl, rfl, rfl, ?_⟩
    intro h0 h1
    constructor
    · show 7/10 ≤ 7/10 + rl * (6/10)
      nlinarith
    · show 7/10 + rl * (6/10) ≤ 13/10
      nlinarith

/-- Witness for C7: in the pool `[alive, idle]` the first idle slot is
index 1, and a spawn with `rl = 1/2` initializes exactly that slot
(life `1`, inside `[0.7, 1.3]`). -/
theorem spawn_initializes_first_idle_slot_witness :
    firstIdleIdx [testAliveParticle, initParticle0] = some 1
    ∧ (spawnParticles ⟨5, 5, 5⟩ 0x60e6ff (1/2) (1/2) (1/2) (1/2) (1/2)
          [testAliveParticle, initParticle0]).get? 1 =
        some (spawnedParticle ⟨5, 5, 5⟩ 0x60e6ff (1/2) (1/2) (1/2) (1/2) (1/2))
    ∧ (0 : Rat) ≤ 1/2 ∧ (1/2 : Rat) ≤ 1
    ∧ 7/10 ≤ (spawnedParticle ⟨5, 5, 5⟩ 0x60e6ff (1/2) (1/2) (1/2) (1/2) (1/2)).life
    ∧ (spawnedParticle ⟨5, 5, 5⟩ 0x60e6ff (1/2) (1/2) (1/2) (1/2) (1/2)).life ≤ 13/10 := by
  have h := (spawn_initializes_first_idle_slot
    [testAliveParticle, initParticle0] ⟨5, 5, 5⟩ 0x60e6ff (1/2) (1/2) (1/2) (1/2) (1/2) 1).2
    (by decide)
  have hb := h.2.2.2.2.2.2.2 (by norm_num) (by norm_num)
  exact ⟨by decide, h.1, by norm_num, by norm_num, hb.1, hb.2⟩

/-- C10: a spawn request modifies at most one pool slot: the pool size is
unchanged, a request with no idle slot changes nothing, and when the first
idle slot is index `i`, every other index holds exactly the particle it
held before the call. -/
theorem spawn_modifies_at_most_one_slot
    (pool : List Particle) (o : Vec3) (c : Nat) (rl rs rx ry rz : Rat) (i j : Nat) :
    (spawnParticles o c rl rs rx ry rz pool).length = pool.length
    ∧ (firstIdleIdx pool = none → spawnParticles o c rl rs rx ry rz pool = pool)
    ∧ (firstIdleIdx pool = some i → j ≠ i →
        (spawnParticles o c rl rs rx ry rz pool).get? j = pool.get? j) := by
  refine ⟨spawnParticles_length o c rl rs rx ry rz pool,
    spawnParticles_firstIdle_none o c rl rs rx ry rz pool, ?_⟩
  intro h hj
  exact spawnParticles_get_other o c rl rs rx ry rz pool i j h hj

/-- Witness for C10: in the pool `[alive, idle, idle]` a spawn claims
index 1, and indices 0 and 2 are untouched. -/
theorem spawn_modifies_at_most_one_slot_witness :
    firstIdleIdx [testAliveParticle, initParticle0, initParticle0] = some 1
    ∧ (2 : Nat) ≠ 1
    ∧ (spawnParticles ⟨0, 0, 0⟩ 0xffffff 0 0 0 0 0
          [testAliveParticle, initParticle0, initParticle0]).get? 2 =
        [testAliveParticle, initParticle0, initParticle0].get? 2 := by
  refine ⟨by decide, by decide, ?_⟩
  exact (spawn_modifies_at_most_one_slot
    [testAliveParticle, initParticle0, initParticle0] ⟨0, 0, 0⟩ 0xffffff 0 0 0 0 0 1 2).2.2
    (by decide) (by decide)

/-! ## Scene data model (module variant) -/

/-- Pulse animation state stored in `userData._pulse`. -/
structure Pulse where
  t : Rat
  duration : Rat
  peak : Rat
deriving Repr, DecidableEq

/-- A visual node marker: the mesh (`pos`, `scale`), its material
(`emissiveColor`, `emissiveIntensity`), its `userData`
(`id`, `label`, `category`, `baseScale`) and the optional pulse state. -/
structure NodeV where
  id : String
  label : String
  category : String
  pos : Vec3
  scale : Vec3
  baseScale : Rat
  emissiveColor : Nat
  emissiveIntensity : Rat
  pulse : Option Pulse
deriving Repr, DecidableEq

/-- A node record of the static `nodes` table: id, label, category and the
optional explicit position. -/
structure NodeRec where
  id : String
  label : String
  category : String
  position : Option Vec3
deriving Repr, DecidableEq

/-- `categoryStyle[cat] || categoryStyle.default`: color and base size. -/
def categoryStyle (cat : String) : Nat × Rat :=
  if cat == "core" then (0x60e6ff, 24/10)
  else if cat == "light" then (0xffd17a, 21/10)
  else if cat == "usage" then (0x9be76b, 19/10)
  else if cat == "property" then (0xd78fff, 18/10)
  else if cat == "constraint" then (0xff8b8b, 17/10)
  else if cat == "process" then (0xa7c0ff, 16/10)
  else (0xffffff, 16/10)

/-- The node-creation loop body: style by category (with default fallback),
scale set uniformly to the style size, position from the record or the
random jitter drawn for this node (`fallback`), fresh black zero-intensity
emissive, no pulse. -/
def buildNode (fallback : Vec3) (n : NodeRec) : NodeV :=
  let style := categoryStyle n.category
  { id := n.id, label := n.label, category := n.category
    pos := n.position.getD fallback
    scale := ⟨style.2, style.2, style.2⟩
    baseScale := style.2
    emissiveColor := 0
    emissiveIntensity := 0
    pulse := none }

/-- The whole node-creation loop; `fallbacks i` is the random position that
would be drawn for the `i`-th record if it carries no position. -/
def buildNodes (fallbacks : Nat → Vec3) (ns : List NodeRec) : List NodeV :=
  ns.enum.map fun p => buildNode (fallbacks p.1) p.2

/-- A visual edge: its fixed topology (`userData = {a, b}`) and the two
endpoint positions currently held in its line geometry. -/
structure EdgeV where
  a : String
  b : String
  ga : Vec3
  gb : Vec3
deriving Repr, DecidableEq

/-- `nodeMap.get(i)` over the built node list. -/
def lookupNode (nodes : List NodeV) (i : String) : Option NodeV :=
  nodes.find? fun n => n.id == i

/-- The static edge-creation loop (module variant): for each `[a, b]` pair
it dereferences `nodeMap.get(a).mesh` and `nodeMap.get(b).mesh` with no
existence check, so a pair whose endpoint is not in the node map throws
(modelled as `Except.error`); otherwise one `EdgeV` per pair, its geometry
set from the two endpoint positions. -/
def buildEdges (nodes : List NodeV) : List (String × String) → Except Unit (List EdgeV)
  | [] => .ok []
  | (a, b) :: rest =>
    match lookupNode nodes a, lookupNode nodes b with
    | some na, some nb =>
      match buildEdges nodes rest with
      | .ok l => .ok (⟨a, b, na.pos, nb.pos⟩ :: l)
      | .error e => .error e
    | _, _ => .error ()

/-! ## CSV variant edge loading -/

/-- One row of `edges.csv` after parsing: either column may be missing. -/
structure CSVEdge where
  source : Option String
  target : Option String
deriving Repr, DecidableEq

/-- JS falsiness of a parsed field: absent or the empty string. -/
def falsyField : Option String → Bool
  | none => true
  | some s => s == ""

/-- The CSV edge callback (first variant): drop rows with a falsy
`source`/`target`; create a line only when both endpoints are keys of
`nodeMap`; otherwise skip the row and continue. -/
def buildEdgesCSV (nodeIds : List String) : List CSVEdge → List (String × String)
  | [] => []
  | r :: rest =>
    if falsyField r.source || falsyField r.target then buildEdgesCSV nodeIds rest
    else
      if nodeIds.contains (r.source.getD "") && nodeIds.contains (r.target.getD "") then
        (r.source.getD "", r.target.getD "") :: buildEdgesCSV nodeIds rest
      else buildEdgesCSV nodeIds rest

/-- A CSV row that yields a visual edge: both fields present and non-falsy,
both ids in the node set. -/
def csvEdgeKept (nodeIds : List String) (r : CSVEdge) : Bool :=
  !(falsyField r.source || falsyField r.target)
  && (nodeIds.contains (r.source.getD "") && nodeIds.contains (r.target.getD ""))

/-! ## Static ontology data -/

/-- The `nodes` table of the module variant. -/
def nodesData : List NodeRec :=
  [⟨"Material", "Responsive Material", "core", some ⟨0, 0, 0⟩⟩,
   ⟨"Sun", "Sun (ambient light)", "light", some ⟨50, 40, -20⟩⟩,
   ⟨"Torch", "Torch / Lamp", "light", some ⟨-50, 18, 8⟩⟩,
   ⟨"Wrapping", "Wrapping / Cover", "usage", some ⟨24, -10, 12⟩⟩,
   ⟨"Body", "Product Body", "usage", some ⟨-28, -12, 14⟩⟩,
   ⟨"Feeding", "Pet Feeding Use", "usecase", some ⟨0, -28, 0⟩⟩,
   ⟨"Responsivity", "Responsivity Modes", "property", some ⟨0, 20, -20⟩⟩,
   ⟨"Thermo", "Thermochromic", "property", some ⟨18, 28, -5⟩⟩,
   ⟨"Hydro", "Hydrochromic", "property", some ⟨-18, 28, -5⟩⟩,
   ⟨"Safety", "Safety / Non-toxic", "constraint", some ⟨-48, -28, -10⟩⟩,
   ⟨"Cleaning", "Cleaning / Durability", "constraint", some ⟨48, -28, -10⟩⟩,
   ⟨"Manufacture", "Manufacturability", "process", some ⟨0, 40, 18⟩⟩]

/-- The `edges` table of the module variant. -/
def edgesData : List (String × String) :=
  [("Material", "Sun"), ("Material", "Torch"), ("Material", "Wrapping"),
   ("Material", "Body"), ("Material", "Responsivity"), ("Responsivity", "Thermo"),
   ("Responsivity", "Hydro"), ("Body", "Feeding"), ("Wrapping", "Feeding"),
   ("Material", "Safety"), ("Material", "Cleaning"), ("Material", "Manufacture")]

/-- The nodes actually built at start-up (all records carry positions, so
the random fallback is irrelevant; it is fixed to the origin here). -/
def sceneNodes : List NodeV := buildNodes (fun _ => ⟨0, 0, 0⟩) nodesData

/-- A single well-formed node named "A", for exercising the edge builders. -/
def nodeA : NodeV := buildNode ⟨0, 0, 0⟩ ⟨"A", "A", "core", some ⟨0, 0, 0⟩⟩

/-- Counterexample to C1: in the module variant's edge-creation loop an
edge record referencing the missing node id "B" does not get skipped — the
unchecked `nodeMap.get('B').mesh` dereference makes the build fail, so it
does not continue without error. -/
theorem dangling_edge_static_build_counterexample :
    buildEdges [nodeA] [("A", "B")] = Except.error ()
    ∧ ∀ l : List EdgeV, buildEdges [nodeA] [("A", "B")] ≠ Except.ok l := by
  have h0 : buildEdges [nodeA] [("A", "B")] = Except.error () := rfl
  exact ⟨h0, fun l hl => by rw [h0] at hl; exact Except.noConfusion hl⟩

/-- C1 (amended): the CSV path builds exactly one edge per row whose two
fields are non-falsy and name existing nodes — its edge count equals the
count of such rows and all other rows are skipped without error; the static
path builds one edge per record and succeeds whenever every record's two
endpoints exist in the node map (as they do in the shipped table), but a
dangling record aborts it with an error instead of being skipped. -/
theorem edge_build_amended :
    (∀ (nodeIds : List String) (recs : List CSVEdge),
        buildEdgesCSV nodeIds recs
          = (recs.filter (csvEdgeKept nodeIds)).map
              (fun r => (r.source.getD "", r.target.getD "")))
    ∧ (∀ (nodeIds : List String) (recs : List CSVEdge),
        (buildEdgesCSV nodeIds recs).length = (recs.filter (csvEdgeKept nodeIds)).length)
    ∧ (∀ (nodes : List NodeV) (es : List (String × String)),
        (∀ p ∈ es, (lookupNode nodes p.1).isSome = true
            ∧ (lookupNode nodes p.2).isSome = true) →
        ∃ l, buildEdges nodes es = Except.ok l ∧ l.length = es.length) := by
  have hchar : ∀ (nodeIds : List String) (recs : List CSVEdge),
      buildEdgesCSV nodeIds recs
        = (recs.filter (csvEdgeKept nodeIds)).map
            (fun r => (r.source.getD "", r.target.getD "")) := by
    intro nodeIds recs
    induction recs with
    | nil => rfl
    | cons r rest ih =>
      cases hf : (falsyField r.source || falsyField r.target) with
      | true => simp [buildEdgesCSV, csvEdgeKept, hf, ih]
      | false =>
        cases hs : nodeIds.contains (r.source.getD "") with
        | false =>
          have h1 : r.source.getD "" ∉ nodeIds := by simpa using hs
          simp [buildEdgesCSV, csvEdgeKept, hf, hs, h1, ih]
        | true =>
          have h1 : r.source.getD "" ∈ nodeIds := by simpa using hs
          cases ht : nodeIds.contains (r.target.getD "") with
          | false =>
            have h2 : r.target.getD "" ∉ nodeIds := by simpa using ht
            simp [buildEdgesCSV, csvEdgeKept, hf, hs, ht, h1, h2, ih]
          | true =>
            have h2 : r.target.getD "" ∈ nodeIds := by simpa using ht
            simp [buildEdgesCSV, csvEdgeKept, hf, hs, ht, h1, h2, ih]
  refine ⟨hchar, ?_, ?_⟩
  · intro nodeIds recs
    rw [hchar nodeIds recs, List.length_map]
  · intro nodes es
    induction es with
    | nil => exact fun _ => ⟨[], rfl, rfl⟩
    | cons p rest ih =>
      intro h
      obtain ⟨a, b⟩ := p
      obtain ⟨ha, hb⟩ := h (a, b) (List.mem_cons_self _ _)
      obtain ⟨na, hna⟩ := Option.isSome_iff_exists.mp ha
      obtain ⟨nb, hnb⟩ := Option.isSome_iff_exists.mp hb
      obtain ⟨l, hl, hlen⟩ := ih fun q hq => h q (List.mem_cons_of_mem _ hq)
      refine ⟨⟨a, b, na.pos, nb.pos⟩ :: l, ?_, by simp [hlen]⟩
      simp only [buildEdges, hna, hnb, hl]

/-- Witness for C1 (amended): every record of the shipped edge table has
both endpoints in the built node map, and the static build succeeds with
one visual edge per record. -/
theorem edge_build_amended_witness :
    (∀ p ∈ edgesData, (lookupNode sceneNodes p.1).isSome = true
        ∧ (lookupNode sceneNodes p.2).isSome = true)
    ∧ ∃ l, buildEdges sceneNodes edgesData = Except.ok l
        ∧ l.length = edgesData.length := by
  have h : ∀ p ∈ edgesData, (lookupNode sceneNodes p.1).isSome = true
      ∧ (lookupNode sceneNodes p.2).isSome = true := by decide
  exact ⟨h, edge_build_amended.2.2 sceneNodes edgesData h⟩

/-! ## Interaction state and handlers (module variant) -/

/-- The mutable session state the handlers touch: camera position, the two
special light intensities, the node markers, the visual edges, the particle
pool, and the drag state (`dragging` holds the id of the grabbed mesh,
`dragOffset` the grab-point offset). -/
structure World where
  cameraPos : Vec3
  sunIntensity : Rat
  torchIntensity : Rat
  nodes : List NodeV
  edges : List EdgeV
  pool : List Particle
  dragging : Option String
  dragOffset : Vec3
deriving Repr, DecidableEq

/-- The Sun branch of `onNodeActivate`:
`sunLight.intensity = Math.min(2.2, sunLight.intensity + 0.9)`. -/
def sunBump (i : Rat) : Rat := min (22/10) (i + 9/10)

/-- The Torch branch of `onNodeActivate`:
`torchLight.intensity = Math.min(3.0, torchLight.intensity + 1.6)`. -/
def torchBump (i : Rat) : Rat := min 3 (i + 16/10)

/-- Mutate the mesh stored under a given id (all list entries carrying that
id, which is the single `nodeMap` entry when ids are unique). -/
def updateNodeById (nodes : List NodeV) (i : String) (f : NodeV → NodeV) : List NodeV :=
  nodes.map fun n => if n.id == i then f n else n

/-- `onNodeActivate(nodeMap.get(id))`: start a pulse
(`{t: 0, duration: 0.6, peak: (baseScale || 1.0) * 1.6}`), set the emissive
highlight to the category color at intensity `0.9`, spawn 8 particles at
the node's world position with that color (`rnds k` are the five random
draws of the `k`-th spawn), and bump the sun or torch light when the id is
"Sun" or "Torch".  A missing map entry makes `nodeEntry.mesh` throw
(`none`). -/
def onNodeActivate (w : World) (i : String)
    (rnds : Nat → Rat × Rat × Rat × Rat × Rat) : Option World :=
  match lookupNode w.nodes i with
  | none => none
  | some n =>
    let base := if n.baseScale = 0 then 1 else n.baseScale
    let color := (categoryStyle n.category).1
    let nodes' := updateNodeById w.nodes i fun m =>
      { m with
        pulse := some ⟨0, 6/10, base * (16/10)⟩
        emissiveColor := color
        emissiveIntensity := 9/10 }
    let pool' := (List.range 8).foldl
      (fun pl k =>
        let r := rnds k
        spawnParticles n.pos color r.1 r.2.1 r.2.2.1 r.2.2.2.1 r.2.2.2.2 pl)
      w.pool
    let si :=
      if i == "Sun" then (sunBump w.sunIntensity, w.torchIntensity)
      else if i == "Torch" then (w.sunIntensity, torchBump w.torchIntensity)
      else (w.sunIntensity, w.torchIntensity)
    some { w with
      nodes := nodes', pool := pool', sunIntensity := si.1, torchIntensity := si.2 }

/-- `onPointerDown`: `hit` is the nearest ray intersection against the node
markers, as `(userData.id of the hit mesh, hit.point)`, or `none` when the
ray hits nothing.  On a hit: mark `dragging`, record
`dragOffset = hit.point - mesh.position`, and activate the node (the plane
built on lines 364–365 is dead code — never read).  On no hit: clear
`dragging`. -/
def onPointerDown (w : World) (hit : Option (String × Vec3))
    (rnds : Nat → Rat × Rat × Rat × Rat × Rat) : Option World :=
  match hit with
  | none => some { w with dragging := none }
  | some (hid, hitPoint) =>
    match lookupNode w.nodes hid with
    | none => none
    | some n =>
      onNodeActivate
        { w with dragging := some hid, dragOffset := hitPoint - n.pos } hid rnds

/-- `onPointerUp`: clear `dragging` unconditionally. -/
def onPointerUp (w : World) : World := { w with dragging := none }

/-- The edge pass of `onPointerMove`: an edge not touching the dragged id
is left alone; a touching edge has its geometry recomputed from the two
endpoint meshes' current positions (`nodeMap.get(...).mesh.position`
throws when an endpoint id is missing — `none`). -/
def moveEdgeUpdate (nodes : List NodeV) (i : String) (e : EdgeV) : Option EdgeV :=
  if e.a == i || e.b == i then
    match lookupNode nodes e.a, lookupNode nodes e.b with
    | some na, some nb => some { e with ga := na.pos, gb := nb.pos }
    | _, _ => none
  else some e

/-- Sequential edge loop; the first throwing edge aborts the handler. -/
def mapEdges (g : EdgeV → Option EdgeV) : List EdgeV → Option (List EdgeV)
  | [] => some []
  | e :: rest =>
    match g e with
    | none => none
    | some e2 =>
      match mapEdges g rest with
      | none => none
      | some l => some (e2 :: l)

/-- `onPointerMove`: nothing happens unless `dragging` is set.  Otherwise
recompute the ray (`rayOrigin`, `rayDir` model `raycaster.ray` after
`setFromCamera`), project to `target = origin + dir * depth` where `depth`
is the dragged mesh's current distance to the camera
(`dragging.position.distanceTo(camera.position)`, the one quantity whose
square root is not rational, hence passed in), move the dragged mesh to
`target - dragOffset`, and recompute the geometry of every touching edge
from current positions. -/
def onPointerMove (w : World) (rayOrigin rayDir : Vec3) (depth : Rat) : Option World :=
  match w.dragging with
  | none => some w
  | some i =>
    let target := rayOrigin + Vec3.smul depth rayDir
    let newPos := target - w.dragOffset
    let nodes' := updateNodeById w.nodes i fun n => { n with pos := newPos }
    match mapEdges (moveEdgeUpdate nodes' i) w.edges with
    | none => none
    | some es => some { w with nodes := nodes', edges := es }

/-- The per-node body of the reset handler: scale back to
`baseScale || 1.6`, emissive intensity `0`, emissive color black. -/
def resetNode (n : NodeV) : NodeV :=
  let s := if n.baseScale = 0 then 16/10 else n.baseScale
  { n with scale := ⟨s, s, s⟩, emissiveIntensity := 0, emissiveColor := 0 }

/-- The `resetBtn` click handler (module variant): camera back to
`(0, 30, 80)`, sun intensity `0.8`, torch intensity `0.0`, and every node
reset to base scale and black zero-intensity emissive
(`controls.reset()` concerns only the external orbit controller). -/
def resetHandler (w : World) : World :=
  { w with
    cameraPos := ⟨0, 30, 80⟩
    sunIntensity := 8/10
    torchIntensity := 0
    nodes := w.nodes.map resetNode }

/-! ## First (CSV) variant interaction -/

/-- The state the first variant's handlers touch: camera position, the two
light intensities, and per node id its mesh scale. -/
structure WorldV1 where
  cameraPos : Vec3
  sunIntensity : Rat
  torchIntensity : Rat
  nodes : List (String × Vec3)
deriving Repr, DecidableEq

/-- The first variant's `onPointerDown`: on a hit, set the hit mesh's scale
to `(3,3,3)` and, when its id is "Sun" or "Torch", set the corresponding
light intensity to the flat value `2` (the `setTimeout` that later restores
scale `(2,2,2)` is an asynchronous callback outside the handler). -/
def onPointerDownV1 (w : WorldV1) (hit : Option String) : WorldV1 :=
  match hit with
  | none => w
  | some hid =>
    { w with
      nodes := w.nodes.map fun p => if p.1 == hid then (p.1, (⟨3, 3, 3⟩ : Vec3)) else p
      sunIntensity := if hid == "Sun" then 2 else w.sunIntensity
      torchIntensity := if hid == "Torch" then 2 else w.torchIntensity }

/-- The first variant's reset handler: camera to `(0,30,80)`, sun `0.8`,
torch `0`; node meshes are not touched. -/
def resetV1 (w : WorldV1) : WorldV1 :=
  { w with cameraPos := ⟨0, 30, 80⟩, sunIntensity := 8/10, torchIntensity := 0 }

/-! ## Label texture cache -/

/-- The label texture cache: `labelCanvasCache` as an association list plus
a counter of how many distinct textures have been generated so far (each
generated `CanvasTexture` is identified by its generation index). -/
structure LabelCache where
  entries : List (String × Nat)
  nextId : Nat
deriving Repr, DecidableEq

/-- `makeLabelTexture(text)`: return the cached texture when the string is
a cache key; otherwise generate a fresh texture, store it under the string
and return it. -/
def makeLabelTexture (text : String) (c : LabelCache) : Nat × LabelCache :=
  match c.entries.lookup text with
  | some t => (t, c)
  | none => (c.nextId, ⟨(text, c.nextId) :: c.entries, c.nextId + 1⟩)

/-- C8: the drag state holds at most one node (it is a single nullable
reference): a pointer-down whose ray hits no node marker clears it, and
pointer-up clears it unconditionally, whatever the prior state. -/
theorem dragging_cleared (w : World) (rnds : Nat → Rat × Rat × Rat × Rat × Rat) :
    (∃ w2, onPointerDown w none rnds = some w2 ∧ w2.dragging = none)
    ∧ (onPointerUp w).dragging = none :=
  ⟨⟨{ w with dragging := none }, rfl, rfl⟩, rfl⟩

/-- C9: `makeLabelTexture` is idempotent in the label string: a second call
with the same string returns the texture produced by the first call and
leaves the cache (including the generation counter) unchanged, so repeated
labels share one texture. -/
theorem label_texture_cache_idempotent (text : String) (c : LabelCache) :
    makeLabelTexture text (makeLabelTexture text c).2
      = ((makeLabelTexture text c).1, (makeLabelTexture text c).2) := by
  cases h : c.entries.lookup text with
  | some t => simp [makeLabelTexture, h]
  | none => simp [makeLabelTexture, h, List.lookup]

/-- A concrete first-variant world: resting sun light, one node. -/
def worldV1Sun : WorldV1 := ⟨⟨0, 30, 80⟩, 8/10, 0, [("Sun", ⟨1, 1, 1⟩)]⟩

/-- Counterexample to C3: in the first (CSV) variant, activating the "Sun"
node at the resting intensity 0.8 sets the sun light to the flat value 2,
not to `min(2.2, 0.8 + 0.9) = 1.7` as the claimed increment-with-ceiling
dictates. -/
theorem sun_activation_flat_counterexample :
    (onPointerDownV1 worldV1Sun (some "Sun")).sunIntensity = 2
    ∧ sunBump (8/10) = 17/10
    ∧ (2 : Rat) ≠ 17/10 := by
  refine ⟨rfl, ?_, by norm_num⟩
  unfold sunBump
  rw [show (8 : Rat)/10 + 9/10 = 17/10 by norm_num]
  rw [min_eq_right (by norm_num : (17 : Rat)/10 ≤ 22/10)]

/-- C3 (amended): in the module variant, activating the node "Sun" sets the
sun intensity to `min(2.2, old + 0.9)` and leaves the torch alone, and
activating "Torch" sets the torch intensity to `min(3.0, old + 1.6)` and
leaves the sun alone; starting from the initial intensities (sun 0.8,
torch 0), any number of repeated activations stays within the ceilings 2.2
and 3.0.  In the first (CSV) variant, clicking "Sun" or "Torch" sets the
corresponding intensity to the flat value 2. -/
theorem sun_torch_activation_amended :
    (∀ (w : World) (rnds : Nat → Rat × Rat × Rat × Rat × Rat),
      (lookupNode w.nodes "Sun").isSome = true →
      ∃ w2, onNodeActivate w "Sun" rnds = some w2
        ∧ w2.sunIntensity = sunBump w.sunIntensity
        ∧ w2.sunIntensity = min (22/10) (w.sunIntensity + 9/10)
        ∧ w2.torchIntensity = w.torchIntensity)
    ∧ (∀ (w : World) (rnds : Nat → Rat × Rat × Rat × Rat × Rat),
      (lookupNode w.nodes "Torch").isSome = true →
      ∃ w2, onNodeActivate w "Torch" rnds = some w2
        ∧ w2.torchIntensity = torchBump w.torchIntensity
        ∧ w2.torchIntensity = min 3 (w.torchIntensity + 16/10)
        ∧ w2.sunIntensity = w.sunIntensity)
    ∧ (∀ n : Nat, sunBump^[n] (8/10) ≤ 22/10 ∧ torchBump^[n] 0 ≤ 3)
    ∧ (∀ w1 : WorldV1, (onPointerDownV1 w1 (some "Sun")).sunIntensity = 2
        ∧ (onPointerDownV1 w1 (some "Torch")).torchIntensity = 2) := by
  refine ⟨?_, ?_, ?_, ?_⟩
  · intro w rnds h
    obtain ⟨n, hn⟩ := Option.isSome_iff_exists.mp h
    simp only [onNodeActivate, hn]
    refine ⟨_, rfl, ?_, ?_, ?_⟩ <;> rfl
  · intro w rnds h
    obtain ⟨n, hn⟩ := Option.isSome_iff_exists.mp h
    simp only [onNodeActivate, hn]
    refine ⟨_, rfl, ?_, ?_, ?_⟩ <;> rfl
  · intro n
    constructor
    · induction n with
      | zero => norm_num
      | succ k ih =>
        rw [Function.iterate_succ_apply']
        exact min_le_left _ _
    · induction n with
      | zero => norm_num
      | succ k ih =>
        rw [Function.iterate_succ_apply']
        exact min_le_left _ _
  · intro w1
    exact ⟨rfl, rfl⟩

/-- Fixed random draws for witness activations. -/
def rnds0 : Nat → Rat × Rat × Rat × Rat × Rat := fun _ => (0, 0, 0, 0, 0)

/-- The session state right after the module variant's start-up: camera at
`(0,30,80)`, sun `0.8`, torch `0`, the built nodes, the fresh pool, no drag
(edges omitted — they are irrelevant to activation). -/
def worldInit : World :=
  { cameraPos := ⟨0, 30, 80⟩, sunIntensity := 8/10, torchIntensity := 0
    nodes := sceneNodes, edges := [], pool := particlePool0
    dragging := none, dragOffset := ⟨0, 0, 0⟩ }

/-- Witness for C3 (amended): both "Sun" and "Torch" are in the shipped
node map, and their activations from the initial state succeed with the
clamped increments. -/
theorem sun_torch_activation_amended_witness :
    (lookupNode worldInit.nodes "Sun").isSome = true
    ∧ (lookupNode worldInit.nodes "Torch").isSome = true
    ∧ (∃ w2, onNodeActivate worldInit "Sun" rnds0 = some w2
        ∧ w2.sunIntensity = sunBump worldInit.sunIntensity
        ∧ w2.sunIntensity = min (22/10) (worldInit.sunIntensity + 9/10)
        ∧ w2.torchIntensity = worldInit.torchIntensity)
    ∧ (∃ w2, onNodeActivate worldInit "Torch" rnds0 = some w2
        ∧ w2.torchIntensity = torchBump worldInit.torchIntensity
        ∧ w2.torchIntensity = min 3 (worldInit.torchIntensity + 16/10)
        ∧ w2.sunIntensity = worldInit.sunIntensity) :=
  ⟨by decide, by decide,
    sun_torch_activation_amended.1 worldInit rnds0 (by decide),
    sun_torch_activation_amended.2.1 worldInit rnds0 (by decide)⟩

/-- A first-variant world observed mid-activation: a node mesh still at the
enlarged scale `(3,3,3)`. -/
def worldV1Mid : WorldV1 := ⟨⟨1, 2, 3⟩, 2, 2, [("Material", ⟨3, 3, 3⟩)]⟩

/-- Counterexample to C4: the first (CSV) variant's reset handler does not
touch the node meshes — a node caught at scale `(3,3,3)` keeps that scale,
which is neither the creation scale `(1,1,1)` nor the post-activation
scale `(2,2,2)`, so reset does not restore every node to its base size. -/
theorem reset_keeps_scale_counterexample :
    (resetV1 worldV1Mid).nodes = [("Material", (⟨3, 3, 3⟩ : Vec3))]
    ∧ ((⟨3, 3, 3⟩ : Vec3) ≠ ⟨1, 1, 1⟩)
    ∧ ((⟨3, 3, 3⟩ : Vec3) ≠ ⟨2, 2, 2⟩) := by
  refine ⟨rfl, fun h => ?_, fun h => ?_⟩
  · have hx : (3 : Rat) = 1 := congrArg Vec3.x h
    norm_num at hx
  · have hx : (3 : Rat) = 2 := congrArg Vec3.x h
    norm_num at hx

/-- C4 (amended): the module variant's reset restores the camera to
`(0,30,80)`, the sun to `0.8`, the torch to `0`, and (for the nodes the
builder produces, whose base scale is a nonzero style size) every node's
scale to its base size and its emissive to zero intensity and black.  The
first (CSV) variant's reset restores only camera, sun and torch, leaving
every node mesh untouched. -/
theorem reset_restores_defaults_amended :
    (∀ w : World, (∀ n ∈ w.nodes, n.baseScale ≠ 0) →
      (resetHandler w).cameraPos = ⟨0, 30, 80⟩
      ∧ (resetHandler w).sunIntensity = 8/10
      ∧ (resetHandler w).torchIntensity = 0
      ∧ ∀ n ∈ (resetHandler w).nodes,
          n.scale = ⟨n.baseScale, n.baseScale, n.baseScale⟩
          ∧ n.emissiveIntensity = 0 ∧ n.emissiveColor = 0)
    ∧ (∀ w1 : WorldV1,
      (resetV1 w1).cameraPos = ⟨0, 30, 80⟩
      ∧ (resetV1 w1).sunIntensity = 8/10
      ∧ (resetV1 w1).torchIntensity = 0
      ∧ (resetV1 w1).nodes = w1.nodes) := by
  constructor
  · intro w h
    refine ⟨rfl, rfl, rfl, ?_⟩
    intro n hn
    obtain ⟨m, hm, rfl⟩ := List.mem_map.mp hn
    have hb : m.baseScale ≠ 0 := h m hm
    simp [resetNode, hb]
  · intro w1
    exact ⟨rfl, rfl, rfl, rfl⟩

theorem categoryStyle_size_ne_zero (cat : String) : (categoryStyle cat).2 ≠ 0 := by
  unfold categoryStyle
  repeat' split
  all_goals norm_num

theorem buildNode_baseScale_ne_zero (fallback : Vec3) (r : NodeRec) :
    (buildNode fallback r).baseScale ≠ 0 :=
  categoryStyle_size_ne_zero r.category

/-- Witness for C4 (amended): every shipped node has a nonzero base scale,
and reset from a perturbed state restores the defaults. -/
theorem reset_restores_defaults_amended_witness :
    (∀ n ∈ worldInit.nodes, n.baseScale ≠ 0)
    ∧ ((resetHandler worldInit).cameraPos = ⟨0, 30, 80⟩
      ∧ (resetHandler worldInit).sunIntensity = 8/10
      ∧ (resetHandler worldInit).torchIntensity = 0
      ∧ ∀ n ∈ (resetHandler worldInit).nodes,
          n.scale = ⟨n.baseScale, n.baseScale, n.baseScale⟩
          ∧ n.emissiveIntensity = 0 ∧ n.emissiveColor = 0) := by
  have h : ∀ n ∈ worldInit.nodes, n.baseScale ≠ 0 := by
    intro n hn
    simp only [worldInit, sceneNodes, buildNodes] at hn
    obtain ⟨p, _, rfl⟩ := List.mem_map.mp hn
    exact buildNode_baseScale_ne_zero _ _
  exact ⟨h, reset_restores_defaults_amended.1 worldInit h⟩

theorem lookupNode_update (nodes : List NodeV) (i j : String) (f : NodeV → NodeV)
    (hf : ∀ n, (f n).id = n.id) :
    lookupNode (updateNodeById nodes i f) j
      = (lookupNode nodes j).map fun n => if n.id == i then f n else n := by
  induction nodes with
  | nil => rfl
  | cons n rest ih =>
    have hid : (if n.id == i then f n else n).id = n.id := by
      by_cases h : (n.id == i) = true <;> simp [h, hf n]
    show List.find? _ ((if n.id == i then f n else n) :: updateNodeById rest i f)
        = Option.map _ (List.find? _ (n :: rest))
    cases hj : (n.id == j) with
    | true =>
      simp only [List.find?, hid, hj]
      rfl
    | false =>
      simp only [List.find?, hid, hj]
      exact ih

theorem mapEdges_isSome (g : EdgeV → Option EdgeV) :
    ∀ l : List EdgeV, (∀ e ∈ l, (g e).isSome = true) → ∃ l2, mapEdges g l = some l2 := by
  intro l
  induction l with
  | nil => exact fun _ => ⟨[], rfl⟩
  | cons e rest ih =>
    intro h
    obtain ⟨e2, he⟩ := Option.isSome_iff_exists.mp (h e (List.mem_cons_self _ _))
    obtain ⟨l2, hl⟩ := ih fun q hq => h q (List.mem_cons_of_mem _ hq)
    exact ⟨e2 :: l2, by simp [mapEdges, he, hl]⟩

theorem mapEdges_mem (g : EdgeV → Option EdgeV) :
    ∀ (l : List EdgeV) (l2 : List EdgeV), mapEdges g l = some l2 →
      ∀ e2 ∈ l2, ∃ e ∈ l, g e = some e2 := by
  intro l
  induction l with
  | nil =>
    intro l2 h e2 he2
    simp only [mapEdges] at h
    injection h with h
    subst h
    simp at he2
  | cons e rest ih =>
    intro l2 h e2 he2
    cases hge : g e with
    | none => simp [mapEdges, hge] at h
    | some e3 =>
      cases hrest : mapEdges g rest with
      | none => simp [mapEdges, hge, hrest] at h
      | some l3 =>
        simp only [mapEdges, hge, hrest] at h
        injection h with h
        subst h
        rcases List.mem_cons.mp he2 with h2 | h2
        · subst h2
          exact ⟨e, List.mem_cons_self _ _, hge⟩
        · obtain ⟨q, hq, hgq⟩ := ih l3 hrest e2 h2
          exact ⟨q, List.mem_cons_of_mem _ hq, hgq⟩

/-- C5: during a drag, a pointer-move succeeds whenever the edges touching
the dragged node reference existing nodes (as all built edges do), and
afterwards every edge touching the dragged id holds in its geometry exactly
the current positions of its two endpoint nodes — the dragged node itself
now sitting at the ray's plane projection minus the stored grab offset, so
no stale cached position survives the move. -/
theorem drag_updates_connected_edges (w : World) (i : String) (ro rd : Vec3) (depth : Rat)
    (hdrag : w.dragging = some i)
    (hends : ∀ e ∈ w.edges, (e.a = i ∨ e.b = i) →
        (lookupNode w.nodes e.a).isSome = true ∧ (lookupNode w.nodes e.b).isSome = true) :
    ∃ w2, onPointerMove w ro rd depth = some w2
      ∧ (∀ e ∈ w2.edges, (e.a = i ∨ e.b = i) →
          (∃ na, lookupNode w2.nodes e.a = some na ∧ e.ga = na.pos)
          ∧ (∃ nb, lookupNode w2.nodes e.b = some nb ∧ e.gb = nb.pos))
      ∧ (∀ n, lookupNode w2.nodes i = some n →
          n.pos = ro + Vec3.smul depth rd - w.dragOffset) := by
  have hf : ∀ n : NodeV, (({ n with pos := ro + Vec3.smul depth rd - w.dragOffset } : NodeV)).id
      = n.id := fun n => rfl
  have hsome : ∀ j, (lookupNode w.nodes j).isSome = true →
      (lookupNode (updateNodeById w.nodes i fun n =>
        { n with pos := ro + Vec3.smul depth rd - w.dragOffset }) j).isSome = true := by
    intro j hj
    obtain ⟨v, hv⟩ := Option.isSome_iff_exists.mp hj
    rw [lookupNode_update w.nodes i j _ hf, hv]
    rfl
  have hall : ∀ e ∈ w.edges,
      (moveEdgeUpdate (updateNodeById w.nodes i fun n =>
        { n with pos := ro + Vec3.smul depth rd - w.dragOffset }) i e).isSome = true := by
    intro e he
    unfold moveEdgeUpdate
    cases htouch : (e.a == i || e.b == i) with
    | false => simp [htouch]
    | true =>
      have htp : e.a = i ∨ e.b = i := by
        simpa using htouch
      obtain ⟨ha, hb⟩ := hends e he htp
      obtain ⟨na, hna⟩ := Option.isSome_iff_exists.mp (hsome e.a ha)
      obtain ⟨nb, hnb⟩ := Option.isSome_iff_exists.mp (hsome e.b hb)
      simp [htouch, hna, hnb]
  obtain ⟨l2, hl2⟩ := mapEdges_isSome _ w.edges hall
  refine ⟨{ w with
      nodes := updateNodeById w.nodes i fun n =>
        { n with pos := ro + Vec3.smul depth rd - w.dragOffset }
      edges := l2 }, ?_, ?_, ?_⟩
  · simp only [onPointerMove, hdrag]
    rw [hl2]
  · intro e2 he2 htouch2
    obtain ⟨e, he, hge⟩ := mapEdges_mem _ w.edges l2 hl2 e2 he2
    unfold moveEdgeUpdate at hge
    cases htouch : (e.a == i || e.b == i) with
    | false =>
      rw [htouch] at hge
      simp only [Bool.false_eq_true, if_false] at hge
      injection hge with hge
      subst hge
      have : ¬(e.a = i ∨ e.b = i) := by simpa using htouch
      exact absurd htouch2 this
    | true =>
      rw [htouch] at hge
      simp only [if_true] at hge
      cases hna : lookupNode (updateNodeById w.nodes i fun n =>
          { n with pos := ro + Vec3.smul depth rd - w.dragOffset }) e.a with
      | none => rw [hna] at hge; simp at hge
      | some na =>
        cases hnb : lookupNode (updateNodeById w.nodes i fun n =>
            { n with pos := ro + Vec3.smul depth rd - w.dragOffset }) e.b with
        | none => rw [hna, hnb] at hge; simp at hge
        | some nb =>
          rw [hna, hnb] at hge
          simp only [] at hge
          injection hge with hge
          subst hge
          exact ⟨⟨na, hna, rfl⟩, ⟨nb, hnb, rfl⟩⟩
  · intro n hln
    rw [lookupNode_update w.nodes i i _ hf] at hln
    cases hli : lookupNode w.nodes i with
    | none => rw [hli] at hln; simp at hln
    | some m =>
      rw [hli] at hln
      simp only [Option.map_some'] at hln
      have hli2 : List.find? (fun n => n.id == i) w.nodes = some m := hli
      have hm0 := List.find?_some hli2
      have hm : (m.id == i) = true := hm0
      rw [if_pos hm] at hln
      injection hln with hln
      subst hln
      rfl

/-- A session state mid-drag: the shipped nodes, one edge with stale
geometry, the "Material" node grabbed with offset `(1,0,0)`. -/
def worldDrag : World :=
  { cameraPos := ⟨0, 30, 80⟩, sunIntensity := 8/10, torchIntensity := 0
    nodes := sceneNodes
    edges := [⟨"Material", "Sun", ⟨9, 9, 9⟩, ⟨9, 9, 9⟩⟩]
    pool := [], dragging := some "Material", dragOffset := ⟨1, 0, 0⟩ }

/-- Witness for C5: dragging "Material" along a concrete ray updates the
stale edge geometry to the endpoints' current positions. -/
theorem drag_updates_connected_edges_witness :
    worldDrag.dragging = some "Material"
    ∧ (∀ e ∈ worldDrag.edges, (e.a = "Material" ∨ e.b = "Material") →
        (lookupNode worldDrag.nodes e.a).isSome = true
        ∧ (lookupNode worldDrag.nodes e.b).isSome = true)
    ∧ ∃ w2, onPointerMove worldDrag ⟨0, 0, 0⟩ ⟨0, 0, 1⟩ 10 = some w2
      ∧ (∀ e ∈ w2.edges, (e.a = "Material" ∨ e.b = "Material") →
          (∃ na, lookupNode w2.nodes e.a = some na ∧ e.ga = na.pos)
          ∧ (∃ nb, lookupNode w2.nodes e.b = some nb ∧ e.gb = nb.pos))
      ∧ (∀ n, lookupNode w2.nodes "Material" = some n →
          n.pos = (⟨0, 0, 0⟩ : Vec3) + Vec3.smul 10 ⟨0, 0, 1⟩ - worldDrag.dragOffset) :=
  ⟨rfl, by decide,
    drag_updates_connected_edges worldDrag "Material" ⟨0, 0, 0⟩ ⟨0, 0, 1⟩ 10 rfl (by decide)⟩

end Workshop1
